import Mathlib

/-!
Shallow embedding of `src/main.py` (aggrbot): a once-per-invocation script
that fetches recent Telegram messages across a channel list, locates one
"summary" post, persists the aggregate as a per-day JSON artifact, and
optionally forwards the record to the OpenAI API. Pure data and functions
mirror the source; the external collaborators (the Telethon client, the
OpenAI client, the `json` module and the file system) are modelled by
their public request/response contracts.
-/

namespace Aggrbot

/-! ### Characters and small helpers -/

def wsChar (c : Char) : Bool :=
  c = ' ' || c = '\t' || c = '\n' || c = '\r'

def isDigitC (c : Char) : Bool :=
  '0' ≤ c && c ≤ '9'

def digitChar : Nat → Char
  | 0 => '0' | 1 => '1' | 2 => '2' | 3 => '3' | 4 => '4'
  | 5 => '5' | 6 => '6' | 7 => '7' | 8 => '8' | _ => '9'

def digitVal (c : Char) : Nat := c.toNat - 48

def hexDigit : Nat → Char
  | 0 => '0' | 1 => '1' | 2 => '2' | 3 => '3' | 4 => '4'
  | 5 => '5' | 6 => '6' | 7 => '7' | 8 => '8' | 9 => '9'
  | 10 => 'a' | 11 => 'b' | 12 => 'c' | 13 => 'd' | 14 => 'e' | _ => 'f'

def hexVal (c : Char) : Option Nat :=
  if isDigitC c then some (c.toNat - 48)
  else if 'a' ≤ c && c ≤ 'f' then some (c.toNat - 87)
  else if 'A' ≤ c && c ≤ 'F' then some (c.toNat - 55)
  else none

def skipWs : List Char → List Char
  | [] => []
  | c :: cs => if wsChar c then skipWs cs else c :: cs

/-- `leadMatch needle hay`: `needle` is an initial segment of `hay`. -/
def leadMatch : List Char → List Char → Bool
  | [], _ => true
  | _ :: _, [] => false
  | a :: as, b :: bs => (a = b) && leadMatch as bs

/-- Python's substring test `needle in hay` on character lists. -/
def occursIn (needle hay : List Char) : Bool :=
  match hay with
  | [] => leadMatch needle []
  | _ :: t => leadMatch needle hay || occursIn needle t

/-- Modelled from Python `str.lower`, restricted to the ASCII and Cyrillic
letter ranges that occur in this program's data (the full Unicode case
mapping lives in the language runtime, an external collaborator). -/
def pyLowerChar (c : Char) : Char :=
  if 'A' ≤ c && c ≤ 'Z' then Char.ofNat (c.toNat + 32)
  else if 0x410 ≤ c.toNat && c.toNat ≤ 0x42F then Char.ofNat (c.toNat + 32)
  else if 0x400 ≤ c.toNat && c.toNat ≤ 0x40F then Char.ofNat (c.toNat + 80)
  else if c.toNat = 0x490 then Char.ofNat 0x491
  else c

def pyLower (s : String) : String := String.mk (s.data.map pyLowerChar)

/-! ### Dates

`datetime` values are modelled as Unix timestamps (naturals); the civil
calendar conversion below is the standard days-from-epoch algorithm used
to render the two date formats the program prints. -/

/-- Civil date `(year, month, day)` of a Unix timestamp. -/
def civilFromEpoch (t : Nat) : Nat × Nat × Nat :=
  let z := t / 86400 + 719468
  let era := z / 146097
  let doe := z % 146097
  let yoe := (doe - doe / 1460 + doe / 36524 - doe / 146096) / 365
  let y := yoe + era * 400
  let doy := doe - (365 * yoe + yoe / 4 - yoe / 100)
  let mp := (5 * doy + 2) / 153
  let d := doy - (153 * mp + 2) / 5 + 1
  let m := if mp < 10 then mp + 3 else mp - 9
  (if m ≤ 2 then y + 1 else y, m, d)

def pad2 (n : Nat) : String :=
  String.mk [digitChar (n / 10 % 10), digitChar (n % 10)]

def pad4 (n : Nat) : String :=
  String.mk [digitChar (n / 1000 % 10), digitChar (n / 100 % 10),
             digitChar (n / 10 % 10), digitChar (n % 10)]

/-- `str(now.date())`: ISO `YYYY-MM-DD`, used to build the per-day paths. -/
def dateStr (t : Nat) : String :=
  let c := civilFromEpoch t
  pad4 c.1 ++ "-" ++ pad2 c.2.1 ++ "-" ++ pad2 c.2.2

/-- `date.strftime("%d.%m.%y %H:%M:%S")` as used for message dates
(main.py lines 25 and 43). -/
def fmtDate (t : Nat) : String :=
  let c := civilFromEpoch t
  pad2 c.2.2 ++ "." ++ pad2 c.2.1 ++ "." ++ pad2 (c.1 % 100) ++ " " ++
    pad2 (t / 3600 % 24) ++ ":" ++ pad2 (t / 60 % 60) ++ ":" ++ pad2 (t % 60)

/-! ### Messages and the Telethon collaborator -/

/-- A Telegram message as delivered by the platform collaborator, reduced to
the fields the program reads: `id`, `date` (Unix timestamp), `text` (`""`
when the message has no text, matching Python falsiness of `message.text`)
and `photo` (truthiness of `message.photo`). -/
structure TMessage where
  id : Nat
  date : Nat
  text : String
  photo : Bool
deriving DecidableEq

/-- The reduced message dict `{"id": ..., "date": ..., "text": ...}` built at
main.py lines 22-28 and 41-45. -/
structure FetchedMsg where
  id : Nat
  date : String
  text : String
deriving DecidableEq

def reduceMsg (m : TMessage) : FetchedMsg :=
  FetchedMsg.mk m.id (fmtDate m.date) m.text

/-- Modelled from the Telethon collaborator contract: a channel's store is
its newest-first message list, and `iter_messages(channel, reverse=True,
offset_date=t)` yields the messages posted on/after `t`, oldest first
(main.py lines 18-20). -/
def iter_messages_since (store : List TMessage) (t : Nat) : List TMessage :=
  (store.filter fun m => decide (t ≤ m.date)).reverse

/-- `iter_messages(channel, limit=200)`: the 200 most recent messages in the
platform's default newest-first order (main.py line 34). -/
def iter_messages_limit200 (store : List TMessage) : List TMessage :=
  store.take 200

/-- main.py lines 15-29: fetch a channel's messages since `since_time`,
keeping only text-bearing ones, reduced to the message dict. -/
def fetch_messages (store : List TMessage) (since_time : Nat) : List FetchedMsg :=
  (iter_messages_since store since_time).filterMap fun m =>
    if m.text = "" then none else some (reduceMsg m)

/-- The hardcoded summary predicate of main.py lines 35-40: non-empty text,
an attached photo, the marker token case-insensitively, and the symbol. -/
def summaryPred (m : TMessage) : Bool :=
  !(m.text == "") && m.photo
    && occursIn "збито".data (pyLower m.text).data
    && occursIn "➖".data m.text.data

/-- main.py lines 32-46: scan the distinguished channel's 200 most recent
messages in the platform's default order and return the first match, or
`None`. -/
def fetch_summary_message (store : List TMessage) : Option FetchedMsg :=
  ((iter_messages_limit200 store).find? summaryPred).map reduceMsg

/-! ### JSON values and Python dicts -/

inductive Json where
  | null
  | num (n : Nat)
  | str (s : String)
  | arr (elems : List Json)
  | obj (fields : List (String × Json))

/-- Python `dict` insertion: updating an existing key keeps its position,
a new key is appended. -/
def dictInsert {β : Type} : List (String × β) → String → β → List (String × β)
  | [], k, v => [(k, v)]
  | (k0, v0) :: rest, k, v =>
    if k0 = k then (k, v) :: rest else (k0, v0) :: dictInsert rest k v

def keysUniq : List String → Bool
  | [] => true
  | k :: ks => !(ks.contains k) && keysUniq ks

/-! ### The json-module collaborator: serialization

`json.dump(data, f, indent=4, ensure_ascii=False)` (main.py line 129):
structured, indented text with non-ASCII characters written verbatim. -/

def escChar (c : Char) : List Char :=
  if c = '"' then ['\\', '"']
  else if c = '\\' then ['\\', '\\']
  else if c = '\x08' then ['\\', 'b']
  else if c = '\x0c' then ['\\', 'f']
  else if c = '\n' then ['\\', 'n']
  else if c = '\r' then ['\\', 'r']
  else if c = '\t' then ['\\', 't']
  else if c.toNat < 32 then
    ['\\', 'u', '0', '0', hexDigit (c.toNat / 16), hexDigit (c.toNat % 16)]
  else [c]

def escList : List Char → List Char
  | [] => []
  | c :: cs => escChar c ++ escList cs

def pad (lvl : Nat) : List Char := List.replicate (4 * lvl) ' '

def natDigits (n : Nat) : List Char :=
  if h : n < 10 then [digitChar n]
  else natDigits (n / 10) ++ [digitChar (n % 10)]
termination_by n
decreasing_by exact Nat.div_lt_self (by omega) (by omega)

mutual

def serVal : Json → Nat → List Char
  | Json.null, _ => ['n', 'u', 'l', 'l']
  | Json.num n, _ => natDigits n
  | Json.str s, _ => '"' :: (escList s.data ++ ['"'])
  | Json.arr [], _ => ['[', ']']
  | Json.arr (x :: xs), lvl =>
    '[' :: '\n' :: (serElems x xs (lvl + 1) ++ '\n' :: (pad lvl ++ [']']))
  | Json.obj [], _ => ['{', '}']
  | Json.obj (kv :: kvs), lvl =>
    '{' :: '\n' :: (serFields kv kvs (lvl + 1) ++ '\n' :: (pad lvl ++ ['}']))
termination_by j _ => sizeOf j


def serElems : Json → List Json → Nat → List Char
  | x, [], lvl => pad lvl ++ serVal x lvl
  | x, y :: ys, lvl => pad lvl ++ serVal x lvl ++ ',' :: '\n' :: serElems y ys lvl
termination_by x xs _ => 1 + sizeOf x + sizeOf xs

def serOneField : String × Json → Nat → List Char
  | (k, v), lvl => '"' :: (escList k.data ++ '"' :: ':' :: ' ' :: serVal v lvl)
termination_by kv _ => sizeOf kv

def serFields : String × Json → List (String × Json) → Nat → List Char
  | kv, [], lvl => pad lvl ++ serOneField kv lvl
  | kv, kv2 :: kvs, lvl =>
    pad lvl ++ serOneField kv lvl ++ ',' :: '\n' :: serFields kv2 kvs lvl
termination_by kv kvs _ => 1 + sizeOf kv + sizeOf kvs

end

/-- `json.dump(data, f, indent=4, ensure_ascii=False)` as the text written. -/
def dumps (j : Json) : String := String.mk (serVal j 0)

/-! ### The json-module collaborator: parsing (`json.load`)

A recursive-descent parser over the characters, with explicit fuel so that
every definition is executable. Numerals are restricted to the naturals
this program ever writes (message ids). Duplicate object keys follow
Python's dict semantics via `dictInsert`. -/

def unescChar (e : Char) : Option Char :=
  if e = '"' then some '"'
  else if e = '\\' then some '\\'
  else if e = '/' then some '/'
  else if e = 'b' then some '\x08'
  else if e = 'f' then some '\x0c'
  else if e = 'n' then some '\n'
  else if e = 'r' then some '\r'
  else if e = 't' then some '\t'
  else none

def parseStringAux : List Char → Option (List Char × List Char)
  | [] => none
  | c :: cs =>
    if c = '"' then some ([], cs)
    else if c = '\\' then
      match cs with
      | [] => none
      | e :: cs2 =>
        if e = 'u' then
          match cs2 with
          | h1 :: h2 :: h3 :: h4 :: cs3 =>
            match hexVal h1, hexVal h2, hexVal h3, hexVal h4, parseStringAux cs3 with
            | some a, some b, some x, some d, some (s, r) =>
              some (Char.ofNat (((a * 16 + b) * 16 + x) * 16 + d) :: s, r)
            | _, _, _, _, _ => none
          | _ => none
        else
          match unescChar e, parseStringAux cs2 with
          | some u, some (s, r) => some (u :: s, r)
          | _, _ => none
    else
      match parseStringAux cs with
      | some (s, r) => some (c :: s, r)
      | none => none

def parseNum (input : List Char) : Option (Json × List Char) :=
  if (input.takeWhile isDigitC).isEmpty then none
  else some (Json.num ((input.takeWhile isDigitC).foldl (fun a c => a * 10 + digitVal c) 0),
             input.dropWhile isDigitC)

/-- The parser's work items: a value, the items of an object, or the
elements of an array. -/
inductive PTask where
  | val (input : List Char)
  | objItems (input : List Char) (acc : List (String × Json))
  | arrElems (input : List Char) (acc : List Json)

def parseStep : Nat → PTask → Option (Json × List Char)
  | 0, _ => none
  | fuel + 1, PTask.val input =>
    match skipWs input with
    | [] => none
    | c :: cs =>
      if isDigitC c then parseNum (c :: cs)
      else if c = '"' then
        match parseStringAux cs with
        | some (s, r) => some (Json.str (String.mk s), r)
        | none => none
      else if c = 'n' then
        match cs with
        | c1 :: c2 :: c3 :: r =>
          if c1 = 'u' && c2 = 'l' && c3 = 'l' then some (Json.null, r) else none
        | _ => none
      else if c = '[' then
        match skipWs cs with
        | [] => none
        | c2 :: cs2 =>
          if c2 = ']' then some (Json.arr [], cs2)
          else parseStep fuel (PTask.arrElems cs [])
      else if c = '{' then
        match skipWs cs with
        | [] => none
        | c2 :: cs2 =>
          if c2 = '}' then some (Json.obj [], cs2)
          else parseStep fuel (PTask.objItems cs [])
      else none
  | fuel + 1, PTask.arrElems input acc =>
    match parseStep fuel (PTask.val input) with
    | none => none
    | some (v, r1) =>
      match skipWs r1 with
      | [] => none
      | c :: r2 =>
        if c = ',' then parseStep fuel (PTask.arrElems r2 (acc ++ [v]))
        else if c = ']' then some (Json.arr (acc ++ [v]), r2)
        else none
  | fuel + 1, PTask.objItems input acc =>
    match skipWs input with
    | [] => none
    | c :: cs =>
      if c = '"' then
        match parseStringAux cs with
        | none => none
        | some (k, r1) =>
          match skipWs r1 with
          | [] => none
          | c2 :: r2 =>
            if c2 = ':' then
              match parseStep fuel (PTask.val r2) with
              | none => none
              | some (v, r3) =>
                match skipWs r3 with
                | [] => none
                | c3 :: r4 =>
                  if c3 = ',' then
                    parseStep fuel (PTask.objItems r4 (dictInsert acc (String.mk k) v))
                  else if c3 = '}' then
                    some (Json.obj (dictInsert acc (String.mk k) v), r4)
                  else none
            else none
      else none

/-- Modelled from the `json` module collaborator: `json.load` on the file's
text (main.py line 132). -/
def loads (s : String) : Option Json :=
  match parseStep (s.data.length + 1) (PTask.val s.data) with
  | some (j, rest) => if (skipWs rest).isEmpty then some j else none
  | none => none

/-! ### The aggregate record -/

/-- The unit of persistence: `{"summary": ..., "channels": {...}}`. -/
structure AggregateRecord where
  summary : Option FetchedMsg
  channels : List (String × List FetchedMsg)

def msgJson (m : FetchedMsg) : Json :=
  Json.obj [("id", Json.num m.id), ("date", Json.str m.date), ("text", Json.str m.text)]

def summaryJson : Option FetchedMsg → Json
  | none => Json.null
  | some m => msgJson m

/-- The dict compiled at main.py line 123. -/
def recordToJson (r : AggregateRecord) : Json :=
  Json.obj [("summary", summaryJson r.summary),
            ("channels",
             Json.obj (r.channels.map fun p => (p.1, Json.arr (p.2.map msgJson))))]

/-! ### The file-system collaborator -/

inductive PyError where
  | collab (msg : String)
  | jsonDecode
  | fileExists
  | typeMissingArg
deriving DecidableEq

/-- The file system, modelled as a flat directory set plus a map from paths
to file contents. -/
structure FS where
  dirs : List String
  files : List (String × String)

def FS.hasDir (fs : FS) (d : String) : Bool := fs.dirs.contains d

def FS.readFile (fs : FS) (p : String) : Option String := fs.files.lookup p

def FS.writeFile (fs : FS) (p c : String) : FS :=
  FS.mk fs.dirs (dictInsert fs.files p c)

def FS.addDir (fs : FS) (d : String) : FS := FS.mk (fs.dirs ++ [d]) fs.files

/-- `os.mkdir`: raises `FileExistsError` when the directory already exists. -/
def FS.mkdir (fs : FS) (d : String) : Except PyError FS :=
  if fs.hasDir d then Except.error PyError.fileExists else Except.ok (fs.addDir d)

/-- main.py lines 108-109: create the per-day directory unless it exists. -/
def ensure_day_dir (fs : FS) (d : String) : Except PyError FS :=
  if fs.hasDir d then Except.ok fs else fs.mkdir d

/-! ### The OpenAI step -/

/-- The collaborators a run talks to: the summary channel's store (or a
transport failure while iterating it), each channel's store by name (or a
transport failure), and the OpenAI completion text. -/
structure World where
  summary_channel : Except String (List TMessage)
  chan_fetch : String → Except String (List TMessage)
  openai_response : String

/-- `json.dump(s, f)` with default `ensure_ascii=True` for the filtered
response (main.py line 97): every non-ASCII character is `\uXXXX`-escaped,
code points above the BMP as a surrogate pair. -/
def hex4 (n : Nat) : List Char :=
  [hexDigit (n / 4096 % 16), hexDigit (n / 256 % 16), hexDigit (n / 16 % 16),
   hexDigit (n % 16)]

def asciiEsc (c : Char) : List Char :=
  if c = '"' then ['\\', '"']
  else if c = '\\' then ['\\', '\\']
  else if c = '\x08' then ['\\', 'b']
  else if c = '\x0c' then ['\\', 'f']
  else if c = '\n' then ['\\', 'n']
  else if c = '\r' then ['\\', 'r']
  else if c = '\t' then ['\\', 't']
  else if c.toNat < 32 then ['\\', 'u', '0', '0', hexDigit (c.toNat / 16), hexDigit (c.toNat % 16)]
  else if c.toNat < 127 then [c]
  else if c.toNat < 65536 then '\\' :: 'u' :: hex4 c.toNat
  else
    ('\\' :: 'u' :: hex4 (55296 + (c.toNat - 65536) / 1024)) ++
      ('\\' :: 'u' :: hex4 (56320 + (c.toNat - 65536) % 1024))

def asciiLit (s : String) : String :=
  String.mk ('"' :: (escListAscii s.data ++ ['"']))
where escListAscii : List Char → List Char
  | [] => []
  | c :: cs => asciiEsc c ++ escListAscii cs

/-- main.py lines 49-97 (`process_data(data, save_dir)`): when today's
`openai-filtered.json` is absent, send the record to the OpenAI collaborator
once and write its response; otherwise do nothing. Returns the file system
and the number of OpenAI calls made. -/
def process_data (data : Json) (save_dir : String) (now : Nat) (fs : FS)
    (resp : String) : FS × Nat :=
  let path := save_dir ++ "/" ++ dateStr now ++ "/openai-filtered.json"
  if (fs.readFile path).isNone then (fs.writeFile path (asciiLit resp), 1)
  else (fs, 0)

/-- A Python argument as supplied at a call site. -/
inductive PyArg where
  | jsonArg (j : Json)
  | strArg (s : String)

/-- Python call semantics for `process_data`: the function has two required
positional parameters `(data, save_dir)`; applying it to any other argument
list raises `TypeError` before the body runs. main.py line 136 dispatches it
through `run_in_executor` with the single argument `data`. -/
def invoke_process_data (args : List PyArg) (now : Nat) (fs : FS) (resp : String) :
    FS × Nat × Except PyError Unit :=
  match args with
  | [PyArg.jsonArg data, PyArg.strArg sd] =>
    let r := process_data data sd now fs resp
    (r.1, r.2, Except.ok ())
  | _ => (fs, 0, Except.error PyError.typeMissingArg)

/-! ### The aggregation pipeline (main.py lines 100-136) -/

/-- Outcome of one run of `main`: the final file system, the number of
Telegram-collaborator calls, the number of OpenAI calls, the pipeline's
result (`data`, or the uncaught exception), and the outcome of the
fire-and-forget background task of line 136 (its exception is swallowed by
the never-awaited future). -/
structure RunOutcome where
  fs : FS
  tgCalls : Nat
  oaCalls : Nat
  result : Except PyError Json
  background : Except PyError Unit

/-- The `for channel in all_channels` loop of main.py lines 117-120: one
Telethon call per channel, results inserted into the `channels_data` dict in
request order; a transport failure propagates immediately. Returns the
number of calls made and the dict (or the error). -/
def fetch_loop (cf : String → Except String (List TMessage)) (since_time : Nat) :
    List String → List (String × List FetchedMsg) →
      Nat × Except String (List (String × List FetchedMsg))
  | [], acc => (0, Except.ok acc)
  | ch :: rest, acc =>
    match cf ch with
    | Except.error e => (1, Except.error e)
    | Except.ok raw =>
      let out := fetch_loop cf since_time rest (dictInsert acc ch (fetch_messages raw since_time))
      (out.1 + 1, out.2)

/-- main.py line 136: `client.loop.run_in_executor(None, process_data, data)`
when `openai_step` is true — a detached call of `process_data` with the
single argument `data`. -/
def dispatch_openai (openai_step : Bool) (w : World) (save_dir : String)
    (now : Nat) (fs : FS) (tg : Nat) (data : Json) : RunOutcome :=
  if openai_step then
    let r := invoke_process_data [PyArg.jsonArg data] now fs w.openai_response
    RunOutcome.mk r.1 tg r.2.1 (Except.ok data) r.2.2
  else RunOutcome.mk fs tg 0 (Except.ok data) (Except.ok ())

/-- main.py lines 100-136 (`async def main`): compute the 24-hour window,
ensure the per-day directory, then either perform the full fetch (summary
first, then each channel in order) and write `messages.json`, or load the
existing artifact; finally dispatch the optional OpenAI step. -/
def main (w : World) (fs0 : FS) (all_channels : List String)
    (prompt : Option String) (save_dir : String) (now : Nat)
    (refresh : Bool) (openai_step : Bool) : RunOutcome :=
  let since_time := now - 24 * 60 * 60
  let dayDir := save_dir ++ "/" ++ dateStr now
  let artifact := dayDir ++ "/messages.json"
  match ensure_day_dir fs0 dayDir with
  | Except.error e => RunOutcome.mk fs0 0 0 (Except.error e) (Except.ok ())
  | Except.ok fs1 =>
    if (fs1.readFile artifact).isNone || refresh then
      match w.summary_channel with
      | Except.error e =>
        RunOutcome.mk fs1 1 0 (Except.error (PyError.collab e)) (Except.ok ())
      | Except.ok sum_store =>
        let summary_message := fetch_summary_message sum_store
        let fetched := fetch_loop w.chan_fetch since_time all_channels []
        match fetched.2 with
        | Except.error e =>
          RunOutcome.mk fs1 (1 + fetched.1) 0 (Except.error (PyError.collab e)) (Except.ok ())
        | Except.ok channels_data =>
          let data := recordToJson (AggregateRecord.mk summary_message channels_data)
          let fs2 := fs1.writeFile artifact (dumps data)
          dispatch_openai openai_step w save_dir now fs2 (1 + fetched.1) data
    else
      match fs1.readFile artifact with
      | none => RunOutcome.mk fs1 0 0 (Except.error PyError.jsonDecode) (Except.ok ())
      | some content =>
        match loads content with
        | none => RunOutcome.mk fs1 0 0 (Except.error PyError.jsonDecode) (Except.ok ())
        | some data => dispatch_openai openai_step w save_dir now fs1 0 data

/-! ### CLI and `__main__` (main.py lines 139-230) -/

/-- The option strings registered by `parse_args` (main.py lines 139-182):
`argparse` adds `-h` and `--help` itself and `BooleanOptionalAction` registers the
`--no-` variants. Any other option string on the command line is rejected
by the parser with a usage error. Note that neither `-p` nor `--prompt` is
registered. -/
def registered_options : List String :=
  ["-h", "--help", "--api-id", "--api-hash", "--openai-key",
   "-d", "--save-dir", "--openai-processing", "--no-openai-processing",
   "-a", "--add-channels", "-r", "--refresh", "--no-refresh"]

/-- The attribute names present on the parsed namespace: the `dest` of each
registered argument. Reading any other attribute (as `args.prompt` at
main.py line 225 does) raises `AttributeError`. -/
def namespace_attrs : List String :=
  ["api_id", "api_hash", "openai_key", "save_dir", "openai_processing",
   "add_channels", "refresh"]

/-- The parsed command-line namespace (fields per `parse_args`). -/
structure CliArgs where
  api_id : Option String
  api_hash : Option String
  openai_key : Option String
  save_dir : String
  openai_processing : Bool
  add_channels : List String
  refresh : Bool

/-- The environment variables read at main.py lines 190-192. -/
structure Env where
  telegram_api_id : Option String
  telegram_api_hash : Option String
  openai_api_key : Option String

/-- Python truthiness of an optional string: `None` and `""` are falsy. -/
def truthy : Option String → Bool
  | none => false
  | some s => !(s == "")

/-- Python `a or b` on optional strings. -/
def pyOr (a b : Option String) : Option String :=
  if truthy a then a else b

/-- main.py lines 204-216. -/
def default_channels : List String :=
  ["vanek_nikolaev", "monitor_ukr", "war_monitor", "monitorwarr",
   "dsns_telegram", "dsns_kyiv_region", "gu_dsns_zp", "dsns_sumy",
   "dsns_mykolaiv", "dsns_lviv", "dsns_kherson"]

inductive TopOutcome where
  | configError
  | attrError
  | ran (out : RunOutcome)

/-- main.py lines 185-230 (`__main__`): resolve credentials (CLI over
environment), raise `ValueError` when any is missing — before any network
activity — then build the channel list and call `main`. Building the
`main(...)` call evaluates `args.prompt` (line 225), which is not an
attribute of the namespace, so `AttributeError` is raised before the
pipeline starts. -/
def pyTop (args : CliArgs) (env : Env) (w : World) (fs : FS) (now : Nat) :
    TopOutcome :=
  let api_id := pyOr args.api_id env.telegram_api_id
  let api_hash := pyOr args.api_hash env.telegram_api_hash
  let openai_key := pyOr args.openai_key env.openai_api_key
  if !truthy api_id || !truthy api_hash || !truthy openai_key then
    TopOutcome.configError
  else
    let all_channels := default_channels ++ args.add_channels
    if namespace_attrs.contains "prompt" then
      TopOutcome.ran
        (main w fs all_channels none args.save_dir now args.refresh
          args.openai_processing)
    else TopOutcome.attrError

/-! ### Auxiliary predicates used by the parser correctness lemmas -/

/-- The continuation after a serialized value never starts with a digit. -/
def noDigitHead : List Char → Bool
  | [] => true
  | c :: _ => !(isDigitC c)

/-- A serialized value starts with a non-blank character that is not a
closing bracket. -/
def valHead : List Char → Bool
  | [] => false
  | c :: _ => !wsChar c && !(c == ']') && !(c == '}')

/-! A size measure of JSON values that bounds the parser fuel needed. -/

mutual

def sizeJ : Json → Nat
  | Json.null => 1
  | Json.num _ => 1
  | Json.str _ => 1
  | Json.arr [] => 1
  | Json.arr (x :: xs) => 1 + sizeElems x xs
  | Json.obj [] => 1
  | Json.obj (kv :: kvs) => 1 + sizeFields kv kvs
termination_by j => sizeOf j

def sizeElems : Json → List Json → Nat
  | x, [] => 1 + sizeJ x
  | x, y :: ys => 1 + sizeJ x + sizeElems y ys
termination_by x xs => 1 + sizeOf x + sizeOf xs

def sizeFields : String × Json → List (String × Json) → Nat
  | (_, v), [] => 1 + sizeJ v
  | (_, v), kv2 :: kvs => 1 + sizeJ v + sizeFields kv2 kvs
termination_by kv kvs => 1 + sizeOf kv + sizeOf kvs

end

/-! Well-formed JSON values: every object's keys are distinct — true of
everything Python's `json.dump` can be handed, since dicts cannot repeat
keys. -/

mutual

def wfJ : Json → Bool
  | Json.null => true
  | Json.num _ => true
  | Json.str _ => true
  | Json.arr xs => wfArr xs
  | Json.obj kvs => keysUniq (kvs.map Prod.fst) && wfObj kvs
termination_by j => sizeOf j

def wfArr : List Json → Bool
  | [] => true
  | x :: xs => wfJ x && wfArr xs
termination_by xs => sizeOf xs

def wfObj : List (String × Json) → Bool
  | [] => true
  | (_, v) :: kvs => wfJ v && wfObj kvs
termination_by kvs => sizeOf kvs

end

/-! ## Theorems -/

/-! ### List and dictionary helpers -/

theorem skipWs_cons_not_ws {c : Char} (h : wsChar c = false) (l : List Char) :
    skipWs (c :: l) = c :: l := by
  simp [skipWs, h]

theorem skipWs_cons_ws {c : Char} (h : wsChar c = true) (l : List Char) :
    skipWs (c :: l) = skipWs l := by
  simp [skipWs, h]

theorem skipWs_append_ws {w : List Char} (h : w.all wsChar = true) (l : List Char) :
    skipWs (w ++ l) = skipWs l := by
  induction w with
  | nil => rfl
  | cons c cs ih =>
    simp only [List.all_cons, Bool.and_eq_true] at h
    simp [skipWs, h.1, ih h.2]

theorem pad_all_ws (lvl : Nat) : (pad lvl).all wsChar = true := by
  rw [List.all_eq_true]
  intro c hc
  simp only [pad] at hc
  rw [List.eq_of_mem_replicate hc]
  decide

theorem wsChar_not_digit {c : Char} (h : wsChar c = true) : isDigitC c = false := by
  simp only [wsChar, Bool.or_eq_true, decide_eq_true_eq] at h
  rcases h with ((h | h) | h) | h <;> subst h <;> decide

theorem noDigitHead_ws_cons {w : List Char} (hw : w.all wsChar = true) {c : Char}
    (hc : isDigitC c = false) (r : List Char) : noDigitHead (w ++ c :: r) = true := by
  cases w with
  | nil => simp [noDigitHead, hc]
  | cons d ds =>
    simp only [List.all_cons, Bool.and_eq_true] at hw
    simp [noDigitHead, wsChar_not_digit hw.1]

theorem dictInsert_fresh {β : Type} {d : List (String × β)} {k : String}
    (h : k ∉ d.map Prod.fst) (v : β) : dictInsert d k v = d ++ [(k, v)] := by
  induction d with
  | nil => rfl
  | cons kv rest ih =>
    obtain ⟨k0, v0⟩ := kv
    simp only [List.map_cons, List.mem_cons, not_or] at h
    have hne : ¬(k0 = k) := fun he => h.1 he.symm
    simp [dictInsert, hne, ih h.2]

theorem lookup_eq_none_of_not_mem {β : Type} {d : List (String × β)} {k : String}
    (h : k ∉ d.map Prod.fst) : d.lookup k = none := by
  induction d with
  | nil => rfl
  | cons kv rest ih =>
    obtain ⟨k0, v0⟩ := kv
    simp only [List.map_cons, List.mem_cons, not_or] at h
    have hne : (k == k0) = false := by
      rw [beq_eq_false_iff_ne]
      exact h.1
    simp [List.lookup, hne, ih h.2]

theorem lookup_append_some {β : Type} {d e : List (String × β)} {k : String} {v : β}
    (h : d.lookup k = some v) : (d ++ e).lookup k = some v := by
  induction d with
  | nil => simp [List.lookup] at h
  | cons kv rest ih =>
    obtain ⟨k0, v0⟩ := kv
    cases hk : k == k0 with
    | true => simp_all [List.lookup]
    | false =>
      simp only [List.lookup, hk] at h
      simp only [List.cons_append, List.lookup, hk]
      exact ih h

theorem lookup_append_none {β : Type} {d e : List (String × β)} {k : String}
    (h : d.lookup k = none) : (d ++ e).lookup k = e.lookup k := by
  induction d with
  | nil => rfl
  | cons kv rest ih =>
    obtain ⟨k0, v0⟩ := kv
    cases hk : k == k0 with
    | true => simp [List.lookup, hk] at h
    | false =>
      simp only [List.lookup, hk] at h
      simp only [List.cons_append, List.lookup, hk]
      exact ih h

/-! ### Decimal digits -/

theorem isDigitC_digitChar (d : Nat) : isDigitC (digitChar d) = true := by
  unfold digitChar
  split <;> decide

theorem digitVal_digitChar {d : Nat} (h : d < 10) : digitVal (digitChar d) = d := by
  interval_cases d <;> decide

theorem natDigits_lt {n : Nat} (h : n < 10) : natDigits n = [digitChar n] := by
  rw [natDigits]
  exact dif_pos h

theorem natDigits_ge {n : Nat} (h : ¬n < 10) :
    natDigits n = natDigits (n / 10) ++ [digitChar (n % 10)] := by
  conv_lhs => rw [natDigits]
  exact dif_neg h

theorem natDigits_ne_nil (n : Nat) : natDigits n ≠ [] := by
  by_cases h : n < 10
  · rw [natDigits_lt h]; simp
  · rw [natDigits_ge h]; simp

theorem natDigits_all_digit (n : Nat) : ∀ c ∈ natDigits n, isDigitC c = true := by
  induction n using Nat.strong_induction_on with
  | _ n ih =>
    by_cases h : n < 10
    · rw [natDigits_lt h]
      intro c hc
      rw [List.mem_singleton.mp hc]
      exact isDigitC_digitChar n
    · rw [natDigits_ge h]
      intro c hc
      rcases List.mem_append.mp hc with hc | hc
      · exact ih (n / 10) (Nat.div_lt_self (by omega) (by omega)) c hc
      · rw [List.mem_singleton.mp hc]
        exact isDigitC_digitChar (n % 10)

theorem natDigits_foldl (n : Nat) : ∀ a : Nat,
    (natDigits n).foldl (fun a c => a * 10 + digitVal c) a
      = a * 10 ^ (natDigits n).length + n := by
  induction n using Nat.strong_induction_on with
  | _ n ih =>
    intro a
    by_cases h : n < 10
    · rw [natDigits_lt h]
      simp [List.foldl, digitVal_digitChar h]
    · rw [natDigits_ge h, List.foldl_append,
        ih (n / 10) (Nat.div_lt_self (by omega) (by omega)) a]
      have hm : digitVal (digitChar (n % 10)) = n % 10 :=
        digitVal_digitChar (Nat.mod_lt _ (by omega))
      simp only [List.foldl, List.length_append, List.length_singleton, hm]
      have hdm : n / 10 * 10 + n % 10 = n := by omega
      have hp : 10 ^ ((natDigits (n / 10)).length + 1)
          = 10 ^ (natDigits (n / 10)).length * 10 := by
        rw [pow_succ]
      rw [hp]
      ring_nf
      omega

theorem takeWhile_append_all {p : Char → Bool} {xs : List Char} (ys : List Char)
    (hx : ∀ c ∈ xs, p c = true) :
    (xs ++ ys).takeWhile p = xs ++ ys.takeWhile p := by
  induction xs with
  | nil => rfl
  | cons c cs ih =>
    simp [List.takeWhile_cons, hx c (by simp), ih fun d hd => hx d (by simp [hd])]

theorem dropWhile_append_all {p : Char → Bool} {xs : List Char} (ys : List Char)
    (hx : ∀ c ∈ xs, p c = true) :
    (xs ++ ys).dropWhile p = ys.dropWhile p := by
  induction xs with
  | nil => rfl
  | cons c cs ih =>
    simp [List.dropWhile_cons, hx c (by simp), ih fun d hd => hx d (by simp [hd])]

theorem takeWhile_noDigitHead {ys : List Char} (h : noDigitHead ys = true) :
    ys.takeWhile isDigitC = [] := by
  cases ys with
  | nil => rfl
  | cons c cs =>
    simp only [noDigitHead, Bool.not_eq_true'] at h
    simp [List.takeWhile_cons, h]

theorem dropWhile_noDigitHead {ys : List Char} (h : noDigitHead ys = true) :
    ys.dropWhile isDigitC = ys := by
  cases ys with
  | nil => rfl
  | cons c cs =>
    simp only [noDigitHead, Bool.not_eq_true'] at h
    simp [List.dropWhile_cons, h]

theorem parseNum_natDigits (n : Nat) {rest : List Char} (h : noDigitHead rest = true) :
    parseNum (natDigits n ++ rest) = some (Json.num n, rest) := by
  rw [parseNum]
  rw [takeWhile_append_all rest (natDigits_all_digit n),
    dropWhile_append_all rest (natDigits_all_digit n),
    takeWhile_noDigitHead h, dropWhile_noDigitHead h, List.append_nil]
  have hne : (natDigits n).isEmpty = false := by
    cases he : natDigits n with
    | nil => exact absurd he (natDigits_ne_nil n)
    | cons c cs => rfl
  rw [hne]
  simp [natDigits_foldl n 0]

/-! ### String escaping -/

theorem hexVal_hexDigit {x : Nat} (h : x < 16) : hexVal (hexDigit x) = some x := by
  interval_cases x <;> decide

theorem parseStringAux_escList (s : List Char) : ∀ rest : List Char,
    parseStringAux (escList s ++ '"' :: rest) = some (s, rest) := by
  induction s with
  | nil =>
    intro rest
    rw [escList, List.nil_append, parseStringAux.eq_def]
    simp
  | cons c cs ih =>
    intro rest
    simp only [escList, List.append_assoc]
    by_cases h1 : c = '"'
    · subst h1
      rw [show escChar '"' = ['\\', '"'] from rfl, List.cons_append,
        List.singleton_append, parseStringAux.eq_def]
      simp [unescChar, ih]
    · by_cases h2 : c = '\\'
      · subst h2
        rw [show escChar '\\' = ['\\', '\\'] from rfl, List.cons_append,
          List.singleton_append, parseStringAux.eq_def]
        simp [unescChar, ih]
      · by_cases h3 : c = '\x08'
        · subst h3
          rw [show escChar '\x08' = ['\\', 'b'] from rfl, List.cons_append,
            List.singleton_append, parseStringAux.eq_def]
          simp [unescChar, ih]
        · by_cases h4 : c = '\x0c'
          · subst h4
            rw [show escChar '\x0c' = ['\\', 'f'] from rfl, List.cons_append,
              List.singleton_append, parseStringAux.eq_def]
            simp [unescChar, ih]
          · by_cases h5 : c = '\n'
            · subst h5
              rw [show escChar '\n' = ['\\', 'n'] from rfl, List.cons_append,
                List.singleton_append, parseStringAux.eq_def]
              simp [unescChar, ih]
            · by_cases h6 : c = '\r'
              · subst h6
                rw [show escChar '\r' = ['\\', 'r'] from rfl, List.cons_append,
                  List.singleton_append, parseStringAux.eq_def]
                simp [unescChar, ih]
              · by_cases h7 : c = '\t'
                · subst h7
                  rw [show escChar '\t' = ['\\', 't'] from rfl, List.cons_append,
                    List.singleton_append, parseStringAux.eq_def]
                  simp [unescChar, ih]
                · by_cases h8 : c.toNat < 32
                  · have hesc : escChar c = ['\\', 'u', '0', '0',
                        hexDigit (c.toNat / 16), hexDigit (c.toNat % 16)] := by
                      simp [escChar, h1, h2, h3, h4, h5, h6, h7, h8]
                    rw [hesc]
                    have hv1 : hexVal (hexDigit (c.toNat / 16)) = some (c.toNat / 16) :=
                      hexVal_hexDigit (by omega)
                    have hv2 : hexVal (hexDigit (c.toNat % 16)) = some (c.toNat % 16) :=
                      hexVal_hexDigit (Nat.mod_lt _ (by omega))
                    simp only [List.cons_append, List.nil_append]
                    rw [parseStringAux.eq_def]
                    simp [hv1, hv2, ih rest, show hexVal '0' = some 0 from by decide]
                    rw [show c.toNat / 16 * 16 + c.toNat % 16 = c.toNat by omega]
                    simp [Char.ofNat_toNat]
                  · have hesc : escChar c = [c] := by
                      simp [escChar, h1, h2, h3, h4, h5, h6, h7, h8]
                    rw [hesc]
                    simp only [List.cons_append, List.nil_append]
                    rw [parseStringAux.eq_def]
                    simp [h1, h2, ih rest]

/-! ### Serialized values: head shape and size bounds -/

theorem digit_not_ws {c : Char} (h : isDigitC c = true) : wsChar c = false := by
  cases hw : wsChar c with
  | false => rfl
  | true => exact absurd h (by simp [wsChar_not_digit hw])

theorem digit_ne_of (c0 : Char) (h0 : isDigitC c0 = false) {c : Char}
    (h : isDigitC c = true) : c ≠ c0 := by
  intro he
  subst he
  rw [h] at h0
  exact absurd h0 (by simp)

theorem natDigits_head (n : Nat) :
    ∃ c u, natDigits n = c :: u ∧ isDigitC c = true := by
  cases he : natDigits n with
  | nil => exact absurd he (natDigits_ne_nil n)
  | cons c u =>
    refine ⟨c, u, rfl, ?_⟩
    exact natDigits_all_digit n c (by simp [he])

theorem serVal_cons (j : Json) (lvl : Nat) :
    ∃ c u, serVal j lvl = c :: u ∧ wsChar c = false ∧ c ≠ ']' ∧ c ≠ '}' := by
  cases j with
  | null => exact ⟨'n', ['u', 'l', 'l'], by simp [serVal], by decide, by decide, by decide⟩
  | num n =>
    obtain ⟨c, u, he, hd⟩ := natDigits_head n
    exact ⟨c, u, by simp [serVal, he], digit_not_ws hd,
      digit_ne_of ']' (by decide) hd, digit_ne_of '}' (by decide) hd⟩
  | str s =>
    exact ⟨'"', escList s.data ++ ['"'], by simp [serVal], by decide, by decide, by decide⟩
  | arr xs =>
    cases xs with
    | nil => exact ⟨'[', [']'], by simp [serVal], by decide, by decide, by decide⟩
    | cons x xs =>
      exact ⟨'[', '\n' :: (serElems x xs (lvl + 1) ++ '\n' :: (pad lvl ++ [']'])),
        by simp [serVal], by decide, by decide, by decide⟩
  | obj kvs =>
    cases kvs with
    | nil => exact ⟨'{', ['}'], by simp [serVal], by decide, by decide, by decide⟩
    | cons kv kvs =>
      exact ⟨'{', '\n' :: (serFields kv kvs (lvl + 1) ++ '\n' :: (pad lvl ++ ['}'])),
        by simp [serVal], by decide, by decide, by decide⟩

theorem sizeJ_pos (j : Json) : 1 ≤ sizeJ j := by
  cases j with
  | null => simp [sizeJ]
  | num n => simp [sizeJ]
  | str s => simp [sizeJ]
  | arr xs =>
    cases xs with
    | nil => simp [sizeJ]
    | cons x xs => simp [sizeJ]
  | obj kvs =>
    cases kvs with
    | nil => simp [sizeJ]
    | cons kv kvs => simp [sizeJ]

theorem sizeElems_pos (x : Json) (xs : List Json) : 1 ≤ sizeElems x xs := by
  cases xs <;> simp [sizeElems] <;> omega

theorem sizeFields_pos (kv : String × Json) (kvs : List (String × Json)) :
    1 ≤ sizeFields kv kvs := by
  obtain ⟨k, v⟩ := kv
  cases kvs <;> simp [sizeFields] <;> omega

theorem parseStep_val_ws (fuel : Nat) {w : List Char} (h : w.all wsChar = true)
    (l : List Char) :
    parseStep fuel (PTask.val (w ++ l)) = parseStep fuel (PTask.val l) := by
  cases fuel with
  | zero => rfl
  | succ fuel => simp only [parseStep, skipWs_append_ws h]

theorem serElems_decomp (x : Json) (xs : List Json) (lvl : Nat) :
    ∃ t, serElems x xs lvl = pad lvl ++ (serVal x lvl ++ t) := by
  cases xs with
  | nil => exact ⟨[], by simp [serElems]⟩
  | cons y ys => exact ⟨',' :: '\n' :: serElems y ys lvl, by simp [serElems]⟩

theorem serFields_decomp (kv : String × Json) (kvs : List (String × Json)) (lvl : Nat) :
    ∃ t, serFields kv kvs lvl = pad lvl ++ ('"' :: t) := by
  obtain ⟨k, v⟩ := kv
  cases kvs with
  | nil =>
    exact ⟨escList k.data ++ '"' :: ':' :: ' ' :: serVal v lvl,
      by simp [serFields, serOneField]⟩
  | cons kv2 kvs2 =>
    exact ⟨(escList k.data ++ '"' :: ':' :: ' ' :: serVal v lvl) ++
        ',' :: '\n' :: serFields kv2 kvs2 lvl,
      by simp [serFields, serOneField, List.append_assoc]⟩

theorem keysUniq_cons {k : String} {ks : List String} (h : keysUniq (k :: ks) = true) :
    k ∉ ks ∧ keysUniq ks = true := by
  simp only [keysUniq, Bool.and_eq_true, Bool.not_eq_true'] at h
  refine ⟨?_, h.2⟩
  intro hm
  rw [List.contains_eq_any_beq] at h
  have : ks.any (k == ·) = true := List.any_eq_true.mpr ⟨k, hm, by simp⟩
  rw [this] at h
  exact absurd h.1 (by simp)

mutual

theorem sizeJ_le_serVal (j : Json) (lvl : Nat) : sizeJ j ≤ (serVal j lvl).length := by
  cases j with
  | null => simp [serVal, sizeJ]
  | num n =>
    have := natDigits_ne_nil n
    have : 1 ≤ (natDigits n).length := by
      cases he : natDigits n with
      | nil => exact absurd he (natDigits_ne_nil n)
      | cons c u => simp
    simp only [serVal, sizeJ]
    omega
  | str s => simp [serVal, sizeJ]
  | arr xs =>
    cases xs with
    | nil => simp [serVal, sizeJ]
    | cons x xs =>
      have h := sizeElems_le_serElems x xs (lvl + 1) (by omega)
      simp only [serVal, sizeJ, List.length_cons, List.length_append]
      omega
  | obj kvs =>
    cases kvs with
    | nil => simp [serVal, sizeJ]
    | cons kv kvs =>
      have h := sizeFields_le_serFields kv kvs (lvl + 1) (by omega)
      simp only [serVal, sizeJ, List.length_cons, List.length_append]
      omega
termination_by sizeOf j

theorem sizeElems_le_serElems (x : Json) (xs : List Json) (lvl : Nat) (hl : 1 ≤ lvl) :
    sizeElems x xs ≤ (serElems x xs lvl).length := by
  cases xs with
  | nil =>
    have h := sizeJ_le_serVal x lvl
    simp only [serElems, sizeElems, List.length_append, pad, List.length_replicate]
    omega
  | cons y ys =>
    have h1 := sizeJ_le_serVal x lvl
    have h2 := sizeElems_le_serElems y ys lvl hl
    simp only [serElems, sizeElems, List.length_append, List.length_cons, pad,
      List.length_replicate]
    omega
termination_by 1 + sizeOf x + sizeOf xs

theorem sizeFields_le_serFields (kv : String × Json) (kvs : List (String × Json))
    (lvl : Nat) (hl : 1 ≤ lvl) :
    sizeFields kv kvs ≤ (serFields kv kvs lvl).length := by
  obtain ⟨k, v⟩ := kv
  cases kvs with
  | nil =>
    have h := sizeJ_le_serVal v lvl
    simp only [serFields, serOneField, sizeFields, List.length_append, List.length_cons,
      pad, List.length_replicate]
    omega
  | cons kv2 kvs =>
    have h1 := sizeJ_le_serVal v lvl
    have h2 := sizeFields_le_serFields kv2 kvs lvl hl
    simp only [serFields, serOneField, sizeFields, List.length_append, List.length_cons,
      pad, List.length_replicate]
    omega
termination_by 1 + sizeOf kv + sizeOf kvs

end


set_option maxHeartbeats 1000000 in
theorem parse_ser_all (fuel : Nat) :
    (∀ (j : Json) (lvl : Nat) (rest : List Char), wfJ j = true → sizeJ j ≤ fuel →
      noDigitHead rest = true →
      parseStep fuel (PTask.val (serVal j lvl ++ rest)) = some (j, rest))
    ∧ (∀ (x : Json) (xs : List Json) (lvl : Nat) (w1 w2 rest : List Char)
        (acc : List Json), wfJ x = true → wfArr xs = true → sizeElems x xs ≤ fuel →
        w1.all wsChar = true → w2.all wsChar = true →
        parseStep fuel (PTask.arrElems (w1 ++ serElems x xs lvl ++ w2 ++ ']' :: rest) acc)
          = some (Json.arr (acc ++ x :: xs), rest))
    ∧ (∀ (k : String) (v : Json) (kvs : List (String × Json)) (lvl : Nat)
        (w1 w2 rest : List Char) (acc : List (String × Json)),
        wfJ v = true → wfObj kvs = true →
        keysUniq (k :: kvs.map Prod.fst) = true →
        (∀ k2, k2 ∈ k :: kvs.map Prod.fst → k2 ∉ acc.map Prod.fst) →
        sizeFields (k, v) kvs ≤ fuel →
        w1.all wsChar = true → w2.all wsChar = true →
        parseStep fuel (PTask.objItems (w1 ++ serFields (k, v) kvs lvl ++ w2 ++ '}' :: rest) acc)
          = some (Json.obj (acc ++ (k, v) :: kvs), rest)) := by
  induction fuel with
  | zero =>
    refine ⟨fun j lvl rest _ hs _ => absurd hs (by have := sizeJ_pos j; omega),
      fun x xs lvl w1 w2 rest acc _ _ hs _ _ =>
        absurd hs (by have := sizeElems_pos x xs; omega),
      fun k v kvs lvl w1 w2 rest acc _ _ _ _ hs _ _ =>
        absurd hs (by have := sizeFields_pos (k, v) kvs; omega)⟩
  | succ fuel ih =>
    obtain ⟨ihv, iha, iho⟩ := ih
    refine ⟨?_, ?_, ?_⟩
    · -- values
      intro j lvl rest hw hs hr
      cases j with
      | null =>
        simp only [serVal, List.cons_append, List.nil_append]
        rw [parseStep]
        rw [skipWs_cons_not_ws (by decide)]
        simp [show isDigitC 'n' = false from by decide]
      | num n =>
        obtain ⟨c, u, he, hd⟩ := natDigits_head n
        simp only [serVal]
        rw [he, List.cons_append, parseStep, skipWs_cons_not_ws (digit_not_ws hd)]
        simp only [hd, if_true]
        rw [show (c :: (u ++ rest)) = natDigits n ++ rest from by rw [he, List.cons_append]]
        exact parseNum_natDigits n hr
      | str s =>
        simp only [serVal, List.cons_append, List.append_assoc, List.singleton_append]
        rw [parseStep]
        rw [skipWs_cons_not_ws (by decide)]
        simp [show isDigitC '"' = false from by decide, parseStringAux_escList s.data rest]
      | arr xs =>
        cases xs with
        | nil =>
          simp only [serVal, List.cons_append, List.singleton_append]
          rw [parseStep]
          rw [skipWs_cons_not_ws (by decide)]
          simp [show isDigitC '[' = false from by decide,
            skipWs_cons_not_ws (show wsChar ']' = false from by decide)]
        | cons x xs =>
          simp only [wfJ, wfArr, Bool.and_eq_true] at hw
          simp only [sizeJ] at hs
          simp only [serVal, List.cons_append, List.append_assoc]
          rw [parseStep]
          rw [skipWs_cons_not_ws (by decide)]
          have harr := iha x xs (lvl + 1) ['\n'] ('\n' :: pad lvl) rest []
            hw.1 hw.2 (by omega) (by decide) (by simp [pad_all_ws] <;> decide)
          simp only [List.singleton_append, List.cons_append, List.append_assoc] at harr
          -- establish the head of skipWs cs
          obtain ⟨t, hdec⟩ := serElems_decomp x xs (lvl + 1)
          obtain ⟨c, u, hser, hcw, hc1, hc2⟩ := serVal_cons x (lvl + 1)
          have hsk : skipWs ('\n' :: (serElems x xs (lvl + 1) ++
              ('\n' :: (pad lvl ++ (']' :: rest)))))
              = c :: (u ++ (t ++ ('\n' :: (pad lvl ++ (']' :: rest))))) := by
            rw [skipWs_cons_ws (show wsChar '\n' = true from by decide), hdec, List.append_assoc,
              skipWs_append_ws (pad_all_ws (lvl + 1)), List.append_assoc, hser,
              List.cons_append, skipWs_cons_not_ws hcw]
          simp only [List.nil_append] at harr
          simp [hsk, hc1, harr, show isDigitC '[' = false from by decide]
      | obj kvs =>
        cases kvs with
        | nil =>
          simp only [serVal, List.cons_append, List.singleton_append]
          rw [parseStep]
          rw [skipWs_cons_not_ws (show wsChar '{' = false from by decide)]
          simp [show isDigitC '{' = false from by decide,
            skipWs_cons_not_ws (show wsChar '}' = false from by decide)]
        | cons kv kvs =>
          obtain ⟨k, v⟩ := kv
          simp only [wfJ, wfObj, Bool.and_eq_true, List.map_cons] at hw
          simp only [sizeJ] at hs
          simp only [serVal, List.cons_append, List.append_assoc]
          rw [parseStep]
          rw [skipWs_cons_not_ws (show wsChar '{' = false from by decide)]
          have hobj := iho k v kvs (lvl + 1) ['\n'] ('\n' :: pad lvl) rest []
            hw.2.1 hw.2.2 hw.1 (by simp) (by omega) (by decide)
            (by simp [pad_all_ws] <;> decide)
          simp only [List.nil_append, List.singleton_append, List.cons_append,
            List.append_assoc] at hobj
          obtain ⟨t, hdec⟩ := serFields_decomp (k, v) kvs (lvl + 1)
          have hsk : skipWs ('\n' :: (serFields (k, v) kvs (lvl + 1) ++
              '\n' :: (pad lvl ++ '}' :: rest)))
              = '"' :: (t ++ ('\n' :: (pad lvl ++ '}' :: rest))) := by
            rw [skipWs_cons_ws (show wsChar '\n' = true from by decide), hdec,
              List.append_assoc, skipWs_append_ws (pad_all_ws (lvl + 1)),
              List.cons_append,
              skipWs_cons_not_ws (show wsChar '"' = false from by decide)]
          simp [hsk, hobj, show isDigitC '{' = false from by decide]
    · -- array elements
      intro x xs lvl w1 w2 rest acc hwx hwxs hs hw1 hw2
      cases xs with
      | nil =>
        have hval : parseStep fuel
            (PTask.val (w1 ++ serElems x [] lvl ++ w2 ++ ']' :: rest))
            = some (x, w2 ++ ']' :: rest) := by
          rw [show w1 ++ serElems x [] lvl ++ w2 ++ ']' :: rest
              = (w1 ++ pad lvl) ++ (serVal x lvl ++ (w2 ++ ']' :: rest)) from by
            simp [serElems, List.append_assoc]]
          rw [parseStep_val_ws fuel (by simp [List.all_append, hw1, pad_all_ws])]
          exact ihv x lvl _ hwx (by simp only [sizeElems] at hs; omega)
            (noDigitHead_ws_cons hw2 (by decide) rest)
        rw [parseStep, hval]
        simp [skipWs_append_ws hw2,
          skipWs_cons_not_ws (show wsChar ']' = false from by decide)]
      | cons y ys =>
        simp only [wfArr, Bool.and_eq_true] at hwxs
        simp only [sizeElems] at hs
        have hval : parseStep fuel
            (PTask.val (w1 ++ serElems x (y :: ys) lvl ++ w2 ++ ']' :: rest))
            = some (x, ',' :: '\n' :: (serElems y ys lvl ++ (w2 ++ ']' :: rest))) := by
          rw [show w1 ++ serElems x (y :: ys) lvl ++ w2 ++ ']' :: rest
              = (w1 ++ pad lvl) ++ (serVal x lvl ++
                  (',' :: '\n' :: (serElems y ys lvl ++ (w2 ++ ']' :: rest)))) from by
            simp [serElems, List.append_assoc]]
          rw [parseStep_val_ws fuel (by simp [List.all_append, hw1, pad_all_ws])]
          exact ihv x lvl _ hwx (by omega) rfl
        rw [parseStep, hval]
        have harr := iha y ys lvl ['\n'] w2 rest (acc ++ [x]) hwxs.1 hwxs.2
          (by omega) (by decide) hw2
        simp only [List.singleton_append, List.cons_append, List.append_assoc,
          List.nil_append] at harr
        simp [skipWs_cons_not_ws (show wsChar ',' = false from by decide),
          harr, List.append_assoc]
    · -- object items
      intro k v kvs lvl w1 w2 rest acc hwv hwkvs hku hfresh hs hw1 hw2
      have hfr : k ∉ acc.map Prod.fst := hfresh k (by simp)
      cases kvs with
      | nil =>
        have hsk : skipWs (w1 ++ serFields (k, v) [] lvl ++ w2 ++ '}' :: rest)
            = '"' :: (escList k.data ++ '"' ::
                (':' :: ' ' :: (serVal v lvl ++ (w2 ++ '}' :: rest)))) := by
          rw [show w1 ++ serFields (k, v) [] lvl ++ w2 ++ '}' :: rest
              = (w1 ++ pad lvl) ++ ('"' :: (escList k.data ++ '"' ::
                  (':' :: ' ' :: (serVal v lvl ++ (w2 ++ '}' :: rest))))) from by
            simp [serFields, serOneField, List.append_assoc]]
          rw [skipWs_append_ws (by simp [List.all_append, hw1, pad_all_ws]),
            skipWs_cons_not_ws (show wsChar '"' = false from by decide)]
        have hval : parseStep fuel
            (PTask.val (' ' :: (serVal v lvl ++ (w2 ++ '}' :: rest))))
            = some (v, w2 ++ '}' :: rest) := by
          rw [show (' ' :: (serVal v lvl ++ (w2 ++ '}' :: rest)))
              = [' '] ++ (serVal v lvl ++ (w2 ++ '}' :: rest)) from rfl]
          rw [parseStep_val_ws fuel (by decide)]
          exact ihv v lvl _ hwv (by simp only [sizeFields] at hs; omega)
            (noDigitHead_ws_cons hw2 (by decide) rest)
        rw [parseStep, hsk]
        simp [show isDigitC '"' = false from by decide,
          parseStringAux_escList k.data,
          skipWs_cons_not_ws (show wsChar ':' = false from by decide),
          hval, show String.mk k.data = k from rfl, dictInsert_fresh hfr,
          skipWs_append_ws hw2,
          skipWs_cons_not_ws (show wsChar '}' = false from by decide)]
      | cons kv2 kvs2 =>
        obtain ⟨k2, v2⟩ := kv2
        simp only [wfObj, Bool.and_eq_true] at hwkvs
        simp only [sizeFields] at hs
        simp only [List.map_cons] at hku
        have hkc := keysUniq_cons hku
        have hsk : skipWs (w1 ++ serFields (k, v) ((k2, v2) :: kvs2) lvl ++ w2 ++ '}' :: rest)
            = '"' :: (escList k.data ++ '"' ::
                (':' :: ' ' :: (serVal v lvl ++
                  (',' :: '\n' :: (serFields (k2, v2) kvs2 lvl ++ (w2 ++ '}' :: rest)))))) := by
          rw [show w1 ++ serFields (k, v) ((k2, v2) :: kvs2) lvl ++ w2 ++ '}' :: rest
              = (w1 ++ pad lvl) ++ ('"' :: (escList k.data ++ '"' ::
                  (':' :: ' ' :: (serVal v lvl ++
                    (',' :: '\n' :: (serFields (k2, v2) kvs2 lvl ++ (w2 ++ '}' :: rest))))))) from by
            simp [serFields, serOneField, List.append_assoc]]
          rw [skipWs_append_ws (by simp [List.all_append, hw1, pad_all_ws]),
            skipWs_cons_not_ws (show wsChar '"' = false from by decide)]
        have hval : parseStep fuel
            (PTask.val (' ' :: (serVal v lvl ++
              (',' :: '\n' :: (serFields (k2, v2) kvs2 lvl ++ (w2 ++ '}' :: rest))))))
            = some (v, ',' :: '\n' :: (serFields (k2, v2) kvs2 lvl ++ (w2 ++ '}' :: rest))) := by
          rw [show (' ' :: (serVal v lvl ++
              (',' :: '\n' :: (serFields (k2, v2) kvs2 lvl ++ (w2 ++ '}' :: rest)))))
              = [' '] ++ (serVal v lvl ++
                (',' :: '\n' :: (serFields (k2, v2) kvs2 lvl ++ (w2 ++ '}' :: rest)))) from rfl]
          rw [parseStep_val_ws fuel (by decide)]
          exact ihv v lvl _ hwv (by omega) rfl
        have hfresh2 : ∀ k3, k3 ∈ k2 :: kvs2.map Prod.fst →
            k3 ∉ (acc ++ [(k, v)]).map Prod.fst := by
          intro k3 hm
          rw [List.map_append]
          rw [List.mem_append]
          push_neg
          refine ⟨hfresh k3 (List.mem_cons_of_mem _ hm), ?_⟩
          simp only [List.map_cons, List.map_nil, List.mem_singleton]
          intro he
          exact absurd hm (by rw [he]; exact hkc.1)
        have hobj := iho k2 v2 kvs2 lvl ['\n'] w2 rest (acc ++ [(k, v)])
          hwkvs.1 hwkvs.2 hkc.2 hfresh2 (by omega) (by decide) hw2
        simp only [List.singleton_append, List.cons_append, List.append_assoc,
          List.nil_append] at hobj
        rw [parseStep, hsk]
        simp [show isDigitC '"' = false from by decide,
          parseStringAux_escList k.data,
          skipWs_cons_not_ws (show wsChar ':' = false from by decide),
          hval, show String.mk k.data = k from rfl, dictInsert_fresh hfr,
          skipWs_cons_not_ws (show wsChar ',' = false from by decide),
          hobj, List.append_assoc]

/-- Round trip of the persistence format: parsing the serialized text of any
well-formed JSON value returns the value. -/
theorem loads_dumps (j : Json) (h : wfJ j = true) : loads (dumps j) = some j := by
  unfold loads dumps
  have hlen : sizeJ j ≤ (serVal j 0).length + 1 := by
    have := sizeJ_le_serVal j 0
    omega
  have hp := (parse_ser_all ((serVal j 0).length + 1)).1 j 0 [] h hlen rfl
  rw [List.append_nil] at hp
  simp [hp, skipWs]

/-! ### Well-formedness of the aggregate record's JSON image -/

theorem wfJ_msgJson (m : FetchedMsg) : wfJ (msgJson m) = true := by
  simp only [msgJson, wfJ, wfObj, List.map_cons, List.map_nil, Bool.and_eq_true]
  refine ⟨by decide, ?_⟩
  simp [wfJ]

theorem wfArr_map_msgJson (msgs : List FetchedMsg) :
    wfArr (msgs.map msgJson) = true := by
  induction msgs with
  | nil => simp [wfArr]
  | cons m ms ih => simp [wfArr, wfJ_msgJson m, ih]

theorem wfObj_channels (chans : List (String × List FetchedMsg)) :
    wfObj (chans.map fun p => (p.1, Json.arr (p.2.map msgJson))) = true := by
  induction chans with
  | nil => simp [wfObj]
  | cons p rest ih =>
    simp [wfObj, wfJ, wfArr_map_msgJson p.2, ih]

theorem wfJ_recordToJson (r : AggregateRecord)
    (h : keysUniq (r.channels.map Prod.fst) = true) : wfJ (recordToJson r) = true := by
  have hkeys : ((r.channels.map fun p => (p.1, Json.arr (p.2.map msgJson))).map
      Prod.fst) = r.channels.map Prod.fst := by
    rw [List.map_map]
    rfl
  simp only [recordToJson, wfJ, wfObj, List.map_cons, List.map_nil, Bool.and_eq_true,
    hkeys]
  refine ⟨by decide, ?_, ?_, trivial⟩
  · cases hs : r.summary with
    | none => simp [summaryJson, wfJ]
    | some m => simp [summaryJson, wfJ_msgJson m]
  · simp [h, wfObj_channels r.channels]

/-- C7: persisting an AggregateRecord through the Persistence Layer
(`json.dump` with `indent=4, ensure_ascii=False`, main.py line 129) and
loading it back (`json.load`, line 132) yields the same structured value in
all fields, with non-ASCII text preserved verbatim.  The hypothesis states
that the record's channel keys are distinct, which holds of every record the
program builds since `channels` is a Python dict. -/
theorem c7_persist_roundtrip (r : AggregateRecord)
    (h : keysUniq (r.channels.map Prod.fst) = true) :
    loads (dumps (recordToJson r)) = some (recordToJson r) :=
  loads_dumps (recordToJson r) (wfJ_recordToJson r h)

theorem c7_persist_roundtrip_witness :
    loads (dumps (recordToJson (AggregateRecord.mk
        (some (FetchedMsg.mk 3 "01.01.70 00:00:05" "Збито ціль ➖ \"лапки\""))
        [("ch1", [FetchedMsg.mk 1 "02.01.70 10:00:00" "привіт"]), ("ch2", [])])))
      = some (recordToJson (AggregateRecord.mk
        (some (FetchedMsg.mk 3 "01.01.70 00:00:05" "Збито ціль ➖ \"лапки\""))
        [("ch1", [FetchedMsg.mk 1 "02.01.70 10:00:00" "привіт"]), ("ch2", [])])) :=
  c7_persist_roundtrip
    (AggregateRecord.mk
      (some (FetchedMsg.mk 3 "01.01.70 00:00:05" "Збито ціль ➖ \"лапки\""))
      [("ch1", [FetchedMsg.mk 1 "02.01.70 10:00:00" "привіт"]), ("ch2", [])])
    (by decide)

/-! ### The Summary Locator (C3) -/

theorem find?_first {α : Type} (p : α → Bool) :
    ∀ (l : List α) (x : α), l.find? p = some x →
      ∃ pre post, l = pre ++ x :: post ∧ p x = true ∧ ∀ y ∈ pre, p y = false := by
  intro l
  induction l with
  | nil => intro x h; simp [List.find?] at h
  | cons a as ih =>
    intro x h
    cases hp : p a with
    | true =>
      rw [List.find?_cons_of_pos _ hp] at h
      obtain rfl : a = x := by simpa using h
      exact ⟨[], as, rfl, hp, by simp⟩
    | false =>
      rw [List.find?_cons_of_neg _ (by simp [hp])] at h
      obtain ⟨pre, post, heq, hx, hpre⟩ := ih x h
      refine ⟨a :: pre, post, by simp [heq], hx, ?_⟩
      intro y hy
      rcases List.mem_cons.mp hy with rfl | hy
      · exact hp
      · exact hpre y hy

/-- C3: the Summary Locator returns `None` exactly when none of the scanned
messages (the 200 most recent of the distinguished channel, in the
platform's newest-first order) satisfies all four predicate clauses;
otherwise it returns the first (newest) qualifying message of the scan. -/
theorem c3_summary_locator (store : List TMessage) :
    (fetch_summary_message store = none ↔
      ∀ m ∈ iter_messages_limit200 store, summaryPred m = false)
    ∧ (∀ r, fetch_summary_message store = some r →
      ∃ pre m post, iter_messages_limit200 store = pre ++ m :: post
        ∧ summaryPred m = true
        ∧ (∀ y ∈ pre, summaryPred y = false)
        ∧ r = reduceMsg m) := by
  constructor
  · constructor
    · intro h m hm
      unfold fetch_summary_message at h
      have hn : (iter_messages_limit200 store).find? summaryPred = none := by
        cases hf : (iter_messages_limit200 store).find? summaryPred with
        | none => rfl
        | some x => rw [hf] at h; simp at h
      have := List.find?_eq_none.mp hn m hm
      simpa using this
    · intro h
      unfold fetch_summary_message
      rw [List.find?_eq_none.mpr fun x hx => by simp [h x hx]]
      rfl
  · intro r hr
    unfold fetch_summary_message at hr
    cases hf : (iter_messages_limit200 store).find? summaryPred with
    | none => rw [hf] at hr; simp at hr
    | some m =>
      rw [hf] at hr
      have hr2 : reduceMsg m = r := by simpa using hr
      obtain ⟨pre, post, heq, hm, hpre⟩ := find?_first summaryPred _ m hf
      exact ⟨pre, m, post, heq, hm, hpre, hr2.symm⟩

theorem c3_summary_locator_witness :
    ∃ pre m post,
      iter_messages_limit200
          [TMessage.mk 9 5 "Збито ціль ➖" true, TMessage.mk 8 4 "інше" true]
        = pre ++ m :: post
      ∧ summaryPred m = true
      ∧ (∀ y ∈ pre, summaryPred y = false)
      ∧ reduceMsg (TMessage.mk 9 5 "Збито ціль ➖" true) = reduceMsg m :=
  (c3_summary_locator
      [TMessage.mk 9 5 "Збито ціль ➖" true, TMessage.mk 8 4 "інше" true]).2
    (reduceMsg (TMessage.mk 9 5 "Збито ціль ➖" true)) rfl

/-! ### The Message Fetcher lower bound (C6) -/

/-- C6: every element of the sequence returned by `fetch_messages` comes
from a platform message dated on/after the supplied lower bound — no
message strictly before `since_time` is ever included. -/
theorem c6_fetch_lower_bound (store : List TMessage) (since_time : Nat)
    (r : FetchedMsg) (h : r ∈ fetch_messages store since_time) :
    ∃ m, m ∈ store ∧ since_time ≤ m.date ∧ r = reduceMsg m := by
  unfold fetch_messages iter_messages_since at h
  rw [List.mem_filterMap] at h
  obtain ⟨m, hm, hr⟩ := h
  rw [List.mem_reverse, List.mem_filter] at hm
  refine ⟨m, hm.1, by simpa using hm.2, ?_⟩
  by_cases he : m.text = ""
  · simp [he] at hr
  · simp [he] at hr
    exact hr.symm

theorem c6_fetch_lower_bound_witness :
    ∃ m, m ∈ [TMessage.mk 1 100 "привіт" false] ∧ 50 ≤ m.date
      ∧ reduceMsg (TMessage.mk 1 100 "привіт" false) = reduceMsg m :=
  c6_fetch_lower_bound [TMessage.mk 1 100 "привіт" false] 50
    (reduceMsg (TMessage.mk 1 100 "привіт" false))
    (by
      rw [show fetch_messages [TMessage.mk 1 100 "привіт" false] 50
          = [reduceMsg (TMessage.mk 1 100 "привіт" false)] from rfl]
      exact List.mem_singleton_self _)

/-! ### The channel loop (C1) -/

theorem fetch_loop_spec (cf : String → Except String (List TMessage)) (since : Nat) :
    ∀ (L : List String) (acc : List (String × List FetchedMsg)),
      L.Nodup → (∀ ch ∈ L, ch ∉ acc.map Prod.fst) →
      (∀ ch ∈ L, ∃ raw, cf ch = Except.ok raw) →
      ∃ d, fetch_loop cf since L acc = (L.length, Except.ok d) ∧
        d.map Prod.fst = acc.map Prod.fst ++ L ∧
        (∀ k v, acc.lookup k = some v → d.lookup k = some v) ∧
        (∀ ch raw, ch ∈ L → cf ch = Except.ok raw →
          d.lookup ch = some (fetch_messages raw since)) := by
  intro L
  induction L with
  | nil =>
    intro acc _ _ _
    exact ⟨acc, by simp [fetch_loop], by simp, fun k v h => h, by simp⟩
  | cons ch rest ih =>
    intro acc hnd hfresh hok
    obtain ⟨raw, hcf⟩ := hok ch (by simp)
    have hfr : ch ∉ acc.map Prod.fst := hfresh ch (by simp)
    have hins : dictInsert acc ch (fetch_messages raw since)
        = acc ++ [(ch, fetch_messages raw since)] := dictInsert_fresh hfr _
    simp only [List.nodup_cons] at hnd
    have hfresh2 : ∀ c2 ∈ rest,
        c2 ∉ (acc ++ [(ch, fetch_messages raw since)]).map Prod.fst := by
      intro c2 hc2
      rw [List.map_append, List.mem_append]
      push_neg
      refine ⟨hfresh c2 (by simp [hc2]), ?_⟩
      simp only [List.map_cons, List.map_nil, List.mem_singleton]
      intro he
      exact absurd (he ▸ hc2) hnd.1
    obtain ⟨d, hd, hkeys, hpres, hlook⟩ :=
      ih (acc ++ [(ch, fetch_messages raw since)]) hnd.2 hfresh2
        (fun c2 h2 => hok c2 (by simp [h2]))
    refine ⟨d, ?_, ?_, ?_, ?_⟩
    · simp [fetch_loop, hcf, hins, hd]
    · rw [hkeys, List.map_append]
      simp
    · intro k v hkv
      exact hpres k v (lookup_append_some hkv)
    · intro c2 raw2 hc2 hcf2
      rcases List.mem_cons.mp hc2 with rfl | hc2
      · rw [hcf] at hcf2
        obtain rfl : raw = raw2 := by simpa using hcf2
        have hl : (acc ++ [(c2, fetch_messages raw since)]).lookup c2
            = some (fetch_messages raw since) := by
          rw [lookup_append_none (lookup_eq_none_of_not_mem hfr)]
          simp [List.lookup]
        exact hpres _ _ hl
      · exact hlook c2 raw2 hc2 hcf2

/-- C1 (amended): for every duplicate-free channel list, when every
channel's fetch succeeds, the `channels_data` dict built by the loop of
main.py lines 117-120 has exactly one entry per channel, keyed in request
order, and maps each channel to its fetched sequence — an empty list is
stored when a channel's fetch returned no messages, never an absent key.
(The original claim quantified over all lists; a list with a duplicated
channel makes the dict collapse the two entries, see the counterexample.) -/
theorem c1_channels_in_order (cf : String → Except String (List TMessage))
    (since : Nat) (L : List String) (hnd : L.Nodup)
    (hok : ∀ ch ∈ L, ∃ raw, cf ch = Except.ok raw) :
    ∃ d, fetch_loop cf since L [] = (L.length, Except.ok d) ∧
      d.map Prod.fst = L ∧
      (∀ ch raw, ch ∈ L → cf ch = Except.ok raw →
        d.lookup ch = some (fetch_messages raw since)) := by
  obtain ⟨d, hd, hkeys, _, hlook⟩ :=
    fetch_loop_spec cf since L [] hnd (by simp) hok
  exact ⟨d, hd, by simpa using hkeys, hlook⟩

/-- C1 counterexample: with the duplicated request list `["a", "a"]` (the
program concatenates user-supplied channels onto the defaults without
deduplication, so such lists reach the loop), the resulting dict has a
single entry, not `len(L) = 2`, and its key sequence differs from the
request list. -/
theorem c1_counterexample :
    (fetch_loop (fun _ => Except.ok []) 0 ["a", "a"] []).2
        = Except.ok [("a", ([] : List FetchedMsg))]
    ∧ ([("a", ([] : List FetchedMsg))].map Prod.fst ≠ ["a", "a"])
    ∧ [("a", ([] : List FetchedMsg))].length ≠ (["a", "a"] : List String).length := by
  refine ⟨rfl, by decide, by decide⟩

theorem c1_channels_in_order_witness :
    ∃ d, fetch_loop
        (fun _ => (Except.ok [] : Except String (List TMessage))) 5 ["a", "b"] []
        = (2, Except.ok d) ∧
      d.map Prod.fst = ["a", "b"] ∧
      (∀ ch raw, ch ∈ (["a", "b"] : List String) →
        (fun _ => (Except.ok [] : Except String (List TMessage))) ch = Except.ok raw →
        d.lookup ch = some (fetch_messages raw 5)) :=
  c1_channels_in_order (fun _ => (Except.ok [] : Except String (List TMessage)))
    5 ["a", "b"] (by decide) (fun _ _ => ⟨[], rfl⟩)

/-! ### Pipeline frame lemmas -/

theorem ensure_day_dir_ok (fs : FS) (d : String) :
    ensure_day_dir fs d = Except.ok (if fs.hasDir d then fs else fs.addDir d) := by
  unfold ensure_day_dir FS.mkdir
  by_cases h : fs.hasDir d <;> simp [h]

theorem addDir_files (fs : FS) (d : String) : (fs.addDir d).files = fs.files := rfl

theorem addDir_readFile (fs : FS) (d p : String) :
    (fs.addDir d).readFile p = fs.readFile p := rfl

theorem day_fs_files (fs : FS) (d : String) :
    (if fs.hasDir d then fs else fs.addDir d).files = fs.files := by
  split <;> rfl

theorem day_fs_readFile (fs : FS) (d p : String) :
    (if fs.hasDir d then fs else fs.addDir d).readFile p = fs.readFile p := by
  split <;> rfl

theorem day_fs_dirs_of_hasDir (fs : FS) (d : String) (h : fs.hasDir d = true) :
    (if fs.hasDir d then fs else fs.addDir d) = fs := by
  simp [h]

theorem dispatch_openai_frame (oai : Bool) (w : World) (sd : String) (now : Nat)
    (fs : FS) (tg : Nat) (data : Json) :
    (dispatch_openai oai w sd now fs tg data).fs = fs
    ∧ (dispatch_openai oai w sd now fs tg data).tgCalls = tg
    ∧ (dispatch_openai oai w sd now fs tg data).result = Except.ok data := by
  unfold dispatch_openai invoke_process_data
  cases oai <;> simp

/-- C2: when today's artifact exists and `refresh` is false, the pipeline
makes zero calls to the messaging-platform collaborator, returns the value
parsed from the on-disk artifact, and leaves the stored files — the
artifact included — unchanged. -/
theorem c2_cached_day (w : World) (fs0 : FS) (L : List String)
    (prompt : Option String) (sd : String) (now : Nat) (oai : Bool)
    (content : String) (rec : Json)
    (hfile : fs0.readFile (sd ++ "/" ++ dateStr now ++ "/messages.json")
      = some content)
    (hparse : loads content = some rec) :
    (main w fs0 L prompt sd now false oai).tgCalls = 0
    ∧ (main w fs0 L prompt sd now false oai).result = Except.ok rec
    ∧ (main w fs0 L prompt sd now false oai).fs.readFile
        (sd ++ "/" ++ dateStr now ++ "/messages.json") = some content
    ∧ (main w fs0 L prompt sd now false oai).fs.files = fs0.files := by
  have hframe := dispatch_openai_frame oai w sd now
    (if fs0.hasDir (sd ++ "/" ++ dateStr now) then fs0
     else fs0.addDir (sd ++ "/" ++ dateStr now)) 0 rec
  simp [main, ensure_day_dir_ok, day_fs_readFile, hfile, hparse, hframe.1,
    hframe.2.1, hframe.2.2, day_fs_files]

theorem c2_cached_day_witness :
    (main (World.mk (Except.ok []) (fun _ => Except.ok []) "resp")
        (FS.mk ["./reports", "./reports/1970-01-01"]
          [("./reports/1970-01-01/messages.json", "null")])
        ["ch"] none "./reports" 0 false false).tgCalls = 0
    ∧ (main (World.mk (Except.ok []) (fun _ => Except.ok []) "resp")
        (FS.mk ["./reports", "./reports/1970-01-01"]
          [("./reports/1970-01-01/messages.json", "null")])
        ["ch"] none "./reports" 0 false false).result = Except.ok Json.null
    ∧ (main (World.mk (Except.ok []) (fun _ => Except.ok []) "resp")
        (FS.mk ["./reports", "./reports/1970-01-01"]
          [("./reports/1970-01-01/messages.json", "null")])
        ["ch"] none "./reports" 0 false false).fs.readFile
          ("./reports" ++ "/" ++ dateStr 0 ++ "/messages.json") = some "null"
    ∧ (main (World.mk (Except.ok []) (fun _ => Except.ok []) "resp")
        (FS.mk ["./reports", "./reports/1970-01-01"]
          [("./reports/1970-01-01/messages.json", "null")])
        ["ch"] none "./reports" 0 false false).fs.files
        = (FS.mk ["./reports", "./reports/1970-01-01"]
            [("./reports/1970-01-01/messages.json", "null")]).files := by
  have h := c2_cached_day (World.mk (Except.ok []) (fun _ => Except.ok []) "resp")
    (FS.mk ["./reports", "./reports/1970-01-01"]
      [("./reports/1970-01-01/messages.json", "null")])
    ["ch"] none "./reports" 0 false "null" Json.null rfl rfl
  exact ⟨h.1, h.2.1, h.2.2.1, h.2.2.2⟩

/-! ### Error cases of the pipeline (C8, C10) -/

theorem writeFile_dirs (fs : FS) (p c : String) : (fs.writeFile p c).dirs = fs.dirs := rfl

theorem main_ok_or_frame (w : World) (fs0 : FS) (L : List String)
    (prompt : Option String) (sd : String) (now : Nat) (refresh oai : Bool) :
    (∃ data, (main w fs0 L prompt sd now refresh oai).result = Except.ok data)
    ∨ (main w fs0 L prompt sd now refresh oai).fs.files = fs0.files := by
  by_cases hdir : fs0.hasDir (sd ++ "/" ++ dateStr now) <;>
    simp only [main, ensure_day_dir_ok, hdir, Bool.not_eq_true, if_true, if_false] <;>
    split <;>
    repeat' first
      | (left; exact ⟨_, (dispatch_openai_frame oai w sd now _ _ _).2.2⟩)
      | (right; rfl)
      | split

/-- C8: if the run fails partway through the fetch phase (a collaborator
error during the summary lookup or a channel's fetch) — or indeed fails for
any reason — no file is written: `messages.json` is created only after every
fetch has completed, so the file system's files are exactly as before. -/
theorem c8_no_partial_write (w : World) (fs0 : FS) (L : List String)
    (prompt : Option String) (sd : String) (now : Nat) (refresh oai : Bool)
    (e : PyError)
    (h : (main w fs0 L prompt sd now refresh oai).result = Except.error e) :
    (main w fs0 L prompt sd now refresh oai).fs.files = fs0.files := by
  rcases main_ok_or_frame w fs0 L prompt sd now refresh oai with ⟨data, hok⟩ | hfr
  · rw [hok] at h
    exact absurd h (by simp)
  · exact hfr

theorem c8_no_partial_write_witness :
    (main (World.mk (Except.error "network down") (fun _ => Except.ok []) "resp")
        (FS.mk ["./reports"] []) ["ch"] none "./reports" 0 false false).fs.files
      = (FS.mk ["./reports"] ([] : List (String × String))).files :=
  c8_no_partial_write
    (World.mk (Except.error "network down") (fun _ => Except.ok []) "resp")
    (FS.mk ["./reports"] []) ["ch"] none "./reports" 0 false false
    (PyError.collab "network down") rfl

/-- C10: the pipeline ensures the per-day directory exists before writing,
and the creation is idempotent — when the directory already exists the
directory-creation step returns the file system unchanged and raises no
error, the run leaves the directory set unchanged, and no
`FileExistsError` can be the run's outcome. -/
theorem c10_dir_creation_idempotent (fs : FS) (sd : String) (now : Nat)
    (h : fs.hasDir (sd ++ "/" ++ dateStr now) = true) :
    ensure_day_dir fs (sd ++ "/" ++ dateStr now) = Except.ok fs
    ∧ ∀ (w : World) (L : List String) (prompt : Option String) (refresh oai : Bool),
        (main w fs L prompt sd now refresh oai).fs.dirs = fs.dirs
        ∧ (main w fs L prompt sd now refresh oai).result
            ≠ Except.error PyError.fileExists := by
  constructor
  · rw [ensure_day_dir_ok, day_fs_dirs_of_hasDir fs _ h]
  · intro w L prompt refresh oai
    have hfr := fun fsx tg data => dispatch_openai_frame oai w sd now fsx tg data
    simp only [main, ensure_day_dir_ok, day_fs_dirs_of_hasDir fs _ h]
    constructor
    · split
      · split
        · rfl
        · split
          · rfl
          · rw [(hfr _ _ _).1, writeFile_dirs]
      · split
        · rfl
        · split
          · rfl
          · rw [(hfr _ _ _).1]
    · split
      · split
        · simp
        · split
          · simp
          · rw [(hfr _ _ _).2.2]
            simp
      · split
        · simp
        · split
          · simp
          · rw [(hfr _ _ _).2.2]
            simp

theorem c10_dir_creation_idempotent_witness :
    ensure_day_dir (FS.mk ["./reports", "./reports/1970-01-01"] [])
        ("./reports" ++ "/" ++ dateStr 0) = Except.ok
        (FS.mk ["./reports", "./reports/1970-01-01"] [])
    ∧ ∀ (w : World) (L : List String) (prompt : Option String) (refresh oai : Bool),
        (main w (FS.mk ["./reports", "./reports/1970-01-01"] []) L prompt
            "./reports" 0 refresh oai).fs.dirs
          = (FS.mk ["./reports", "./reports/1970-01-01"] []).dirs
        ∧ (main w (FS.mk ["./reports", "./reports/1970-01-01"] []) L prompt
            "./reports" 0 refresh oai).result ≠ Except.error PyError.fileExists :=
  c10_dir_creation_idempotent (FS.mk ["./reports", "./reports/1970-01-01"] [])
    "./reports" 0 rfl

/-! ### Startup credential check (C9) -/

/-- C9: when any required credential (Telegram API ID, Telegram API Hash,
OpenAI API key) is supplied by neither CLI argument nor environment
variable, the program raises the fatal configuration error at startup;
the outcome does not depend on the collaborators at all — no network
activity is possible before the check. -/
theorem c9_missing_credentials (args : CliArgs) (env : Env) (w w2 : World)
    (fs : FS) (now : Nat)
    (h : truthy (pyOr args.api_id env.telegram_api_id) = false
      ∨ truthy (pyOr args.api_hash env.telegram_api_hash) = false
      ∨ truthy (pyOr args.openai_key env.openai_api_key) = false) :
    pyTop args env w fs now = TopOutcome.configError
    ∧ pyTop args env w fs now = pyTop args env w2 fs now := by
  unfold pyTop
  rcases h with h | h | h <;> simp [h]

theorem c9_missing_credentials_witness :
    pyTop (CliArgs.mk none none none "./reports" false [] false)
        (Env.mk none none (some "sk-key"))
        (World.mk (Except.ok []) (fun _ => Except.ok []) "a")
        (FS.mk [] []) 0
      = TopOutcome.configError
    ∧ pyTop (CliArgs.mk none none none "./reports" false [] false)
        (Env.mk none none (some "sk-key"))
        (World.mk (Except.ok []) (fun _ => Except.ok []) "a")
        (FS.mk [] []) 0
      = pyTop (CliArgs.mk none none none "./reports" false [] false)
        (Env.mk none none (some "sk-key"))
        (World.mk (Except.error "x") (fun _ => Except.error "x") "b")
        (FS.mk [] []) 0 :=
  c9_missing_credentials (CliArgs.mk none none none "./reports" false [] false)
    (Env.mk none none (some "sk-key"))
    (World.mk (Except.ok []) (fun _ => Except.ok []) "a")
    (World.mk (Except.error "x") (fun _ => Except.error "x") "b")
    (FS.mk [] []) 0 (Or.inl rfl)

/-! ### The missing prompt option (C5) and the broken OpenAI dispatch (C4) -/

/-- C5 (code bug): `parse_args` registers no `-p` or `--prompt` option, so
an invocation supplying the flag is rejected by `argparse`; and because the
parsed namespace has no `prompt` attribute, even an invocation without the
flag stops at the `args.prompt` read of line 225 — no invocation that
passes the credential check ever reaches the pipeline. -/
theorem c5_prompt_option_missing :
    registered_options.contains "-p" = false
    ∧ registered_options.contains "--prompt" = false
    ∧ namespace_attrs.contains "prompt" = false
    ∧ ∀ (args : CliArgs) (env : Env) (w : World) (fs : FS) (now : Nat),
        pyTop args env w fs now = TopOutcome.configError
        ∨ pyTop args env w fs now = TopOutcome.attrError := by
  refine ⟨by decide, by decide, by decide, ?_⟩
  intro args env w fs now
  unfold pyTop
  by_cases hc : (!truthy (pyOr args.api_id env.telegram_api_id)
      || !truthy (pyOr args.api_hash env.telegram_api_hash)
      || !truthy (pyOr args.openai_key env.openai_api_key)) = true
  · left
    simp [hc]
  · right
    simp only [Bool.not_eq_true] at hc
    simp [hc]
    decide

/-- C4 (code bug): with `openai-processing` enabled and no cached
filtered-output file, the pipeline's detached dispatch of line 136 passes
`process_data` a single argument although it requires `(data, save_dir)`;
the background task dies with `TypeError`, no OpenAI call is made and no
`openai-filtered.json` is created — whereas the same invocation with both
arguments (the intended call) would have written the model's response. -/
theorem c4_filtered_file_not_created :
    (main (World.mk (Except.ok []) (fun _ => Except.ok []) "MODEL-RESPONSE")
        (FS.mk ["./reports", "./reports/1970-01-01"]
          [("./reports/1970-01-01/messages.json", "null")])
        ["ch"] none "./reports" 0 false true).fs.readFile
        "./reports/1970-01-01/openai-filtered.json" = none
    ∧ (main (World.mk (Except.ok []) (fun _ => Except.ok []) "MODEL-RESPONSE")
        (FS.mk ["./reports", "./reports/1970-01-01"]
          [("./reports/1970-01-01/messages.json", "null")])
        ["ch"] none "./reports" 0 false true).oaCalls = 0
    ∧ (main (World.mk (Except.ok []) (fun _ => Except.ok []) "MODEL-RESPONSE")
        (FS.mk ["./reports", "./reports/1970-01-01"]
          [("./reports/1970-01-01/messages.json", "null")])
        ["ch"] none "./reports" 0 false true).background
        = Except.error PyError.typeMissingArg
    ∧ (invoke_process_data [PyArg.jsonArg Json.null, PyArg.strArg "./reports"] 0
        (FS.mk ["./reports", "./reports/1970-01-01"]
          [("./reports/1970-01-01/messages.json", "null")])
        "MODEL-RESPONSE").1.readFile "./reports/1970-01-01/openai-filtered.json"
        = some (asciiLit "MODEL-RESPONSE") :=
  ⟨rfl, rfl, rfl, rfl⟩

end Aggrbot
